import Mathlib

/-!
Shallow embedding of `src/components/copy.tsx` (the `PhantomConnect` React
component of the radar-hackathon repository) and proofs about its handlers.

Modelling conventions:
* Public keys, mints, addresses, blockhashes and signatures are `String`s.
* `BN` values (bn.js big numbers, an external library) are kept symbolic:
  `BNVal.ofNum n` models `new BN(n)` for a numeric literal, `BNVal.ofStr s`
  models `new BN(s)` for a string argument.
* Component state (`useState`) is a record `CState`; each handler is a pure
  function from its environment (the results the external world returns to
  each awaited call) and the pre-state to the post-state together with a
  trace of observable effects (network calls, alerts, window.open).
  React closure semantics are respected: reads of a state variable inside a
  handler see the value the state had when the handler's closure was
  created (the pre-state), even after the corresponding setter was called
  within the same run; setters only determine the post-state.
* Console logging is not modelled (it has no control-flow effect).
-/

/-- Model of the `TokenInfo` interface: one row of the token list. -/
structure TokenInfo where
  mintAddress : String
  amount : String
  selected : Bool
deriving Repr, DecidableEq

/-- The component state held in `useState` hooks:
`walletKey`, `tokens`, `signature`. -/
structure CState where
  walletKey : Option String
  tokens : List TokenInfo
  signature : Option String
deriving Repr, DecidableEq

/-- One entry of `connection.getParsedTokenAccountsByOwner(...).value`:
the fields of a parsed token account that the component reads.
`rawAmount` models `tokenAmount.amount` (the raw integer string), which the
component never uses; `uiAmountString` models `tokenAmount.uiAmountString`. -/
structure ParsedTokenAccount where
  pubkey : String
  mint : String
  uiAmountString : String
  rawAmount : String
deriving Repr, DecidableEq

/-- Symbolic bn.js value: `ofNum n` is `new BN(n)` on a number,
`ofStr s` is `new BN(s)` on a string. -/
inductive BNVal where
  | ofNum (n : Int)
  | ofStr (s : String)
deriving Repr, DecidableEq

/-- The `compressedAccount` object built in step 3 of `compressTokens`
(`data: Buffer.alloc(0)` is the constant empty buffer, modelled by `data`). -/
structure CompressedAccountInfo where
  hash : String
  amount : BNVal
  owner : String
  lamports : BNVal
  address : Option String
  data : List Nat
deriving Repr, DecidableEq

/-- One element of the `parsedAccounts` array handed to the compression
library: `{ compressedAccount, parsed }`. -/
structure TokenDescriptor where
  compressedAccount : CompressedAccountInfo
  parsed : ParsedTokenAccount
deriving Repr, DecidableEq

/-- A transaction instruction: either
`createAssociatedTokenAccountInstruction(payer, owner, mint, ...)` or
`CompressedTokenProgram.compress({payer, mint, owner, amount, toAddress, source})`,
with the arguments in the order the component passes them. -/
inductive Instruction where
  | createAssociatedTokenAccount (payer owner mint : String)
  | compress (payer mint owner : String) (amount : BNVal) (toAddress source : String)
deriving Repr, DecidableEq

/-- A `Transaction` as assembled by the component: added instructions,
`recentBlockhash`, `feePayer`, and the keys it was signed with. -/
structure Tx where
  instructions : List Instruction
  recentBlockhash : String
  feePayer : String
  signers : List String
deriving Repr, DecidableEq

/-- Observable effects of a handler run, in order of occurrence:
browser effects (`alert`, `openUrl`), wallet-provider calls, RPC network
calls (`net...`), and in-process compression-library calls
(`selectMinCall` for `selectMinCompressedTokenAccountsForTransfer`,
`buildCompressIx` for `CompressedTokenProgram.compress`). -/
inductive Effect where
  | alert (msg : String)
  | openUrl (url : String)
  | netConnect
  | netDisconnect
  | netGetAccountInfo (addr : String)
  | netGetLatestBlockhash
  | netGetParsedTokenAccountsByOwner (owner : String) (mintFilter : Option String)
  | netSignAndSendTransaction (tx : Tx)
  | netConfirmTransaction (sig : String)
  | netGetTransaction (sig : String)
  | selectMinCall (accounts : List TokenDescriptor) (amount : BNVal)
  | buildCompressIx (payer mint owner : String) (amount : BNVal) (toAddress source : String)
deriving Repr, DecidableEq

/-- Whether an effect is a network call (a wallet-provider or RPC round
trip), as opposed to a browser dialog or an in-process library call. -/
def Effect.isNetworkCall : Effect → Bool
  | .netConnect => true
  | .netDisconnect => true
  | .netGetAccountInfo _ => true
  | .netGetLatestBlockhash => true
  | .netGetParsedTokenAccountsByOwner _ _ => true
  | .netSignAndSendTransaction _ => true
  | .netConfirmTransaction _ => true
  | .netGetTransaction _ => true
  | _ => false

/-- `getProvider()`: if `'solana' in window` (`providerPresent`) and the
injected object self-identifies (`provider?.isPhantom`), return it;
otherwise `window.open('https://phantom.app/', '_blank')` and return
`undefined`. The provider handle itself is opaque, modelled by `Unit`. -/
def getProvider (providerPresent isPhantom : Bool) : Option Unit × List Effect :=
  if providerPresent && isPhantom then (some (), [])
  else (none, [Effect.openUrl "https://phantom.app/"])

/-- `fetchTokens(publicKey)`: one
`getParsedTokenAccountsByOwner(publicKey, { programId: TOKEN_PROGRAM_ID })`
call; on success the whole token list is replaced by the mapped records
(`selected: false`); on failure the error is caught and logged, leaving
state untouched. `rpcResult` is what the RPC call returns to the `await`.
The function is total: no exception escapes the handler. -/
def fetchTokens (publicKey : String)
    (rpcResult : Except String (List ParsedTokenAccount))
    (s : CState) : CState × List Effect :=
  let callEff := Effect.netGetParsedTokenAccountsByOwner publicKey none
  match rpcResult with
  | .ok accounts =>
      ({ s with tokens := accounts.map fun a =>
            { mintAddress := a.mint, amount := a.uiAmountString, selected := false } },
       [callEff])
  | .error _ => (s, [callEff])

/-- Environment of a `connectWallet()` run: provider detection flags, the
result of `provider.connect()` (the public key on success), and the result
of the `fetchTokens` RPC call triggered on success. -/
structure ConnectEnv where
  providerPresent : Bool
  isPhantom : Bool
  connectResult : Except String String
  fetchResult : Except String (List ParsedTokenAccount)

/-- `connectWallet()`: detect provider; if present, `provider.connect()`;
on success store the public key and trigger `fetchTokens`; on failure log
and leave state unchanged. -/
def connectWallet (env : ConnectEnv) (s : CState) : CState × List Effect :=
  let (provider, tr) := getProvider env.providerPresent env.isPhantom
  match provider with
  | none => (s, tr)
  | some _ =>
      match env.connectResult with
      | .error _ => (s, tr ++ [Effect.netConnect])
      | .ok pk =>
          let s1 := { s with walletKey := some pk }
          let (s2, ftr) := fetchTokens pk env.fetchResult s1
          (s2, tr ++ [Effect.netConnect] ++ ftr)

/-- Environment of a `disconnectWallet()` run: provider detection flags and
the result of `provider.disconnect()`. -/
structure DisconnectEnv where
  providerPresent : Bool
  isPhantom : Bool
  disconnectResult : Except String Unit

/-- `disconnectWallet()`: detect provider; if present, `provider.disconnect()`;
only on success clear the wallet key and the token list; a thrown error is
caught and logged with state left unchanged. If no provider is detected the
body is skipped entirely (after `getProvider` opened the install page). -/
def disconnectWallet (env : DisconnectEnv) (s : CState) : CState × List Effect :=
  let (provider, tr) := getProvider env.providerPresent env.isPhantom
  match provider with
  | none => (s, tr)
  | some _ =>
      match env.disconnectResult with
      | .ok _ => ({ s with walletKey := none, tokens := [] }, tr ++ [Effect.netDisconnect])
      | .error _ => (s, tr ++ [Effect.netDisconnect])

/-- `handleCheckboxChange(index)`: copy the token array, negate
`updatedTokens[index].selected`, store the result. Modelled on the produced
list for an in-range index (out of range, the JS code would throw reading
`.selected` of `undefined`; no caller uses an out-of-range index). -/
def handleCheckboxChange (tokens : List TokenInfo) (index : Nat) : List TokenInfo :=
  match tokens[index]? with
  | some t => tokens.set index { t with selected := !t.selected }
  | none => tokens

/-- Environment of a `compressTokens()` run: provider flags, the generated
ephemeral payer key (`Keypair.generate()`), the associated-token-address
derivation (`getAssociatedTokenAddress(mint, owner, ...)`, an external
deterministic function), and the value each awaited external call returns,
in program order. `selectMin` is the compression library's
`selectMinCompressedTokenAccountsForTransfer` (its first returned
component, which the code destructures as `[inputAccounts]`). -/
structure CompressEnv where
  providerPresent : Bool
  isPhantom : Bool
  payerKey : String
  deriveAta : String → String → String
  accountInfo : Option String
  blockhash1 : String
  sendResult1 : Except String String
  confirmResult1 : Except String Unit
  parsedAccounts : List ParsedTokenAccount
  selectMin : List TokenDescriptor → BNVal → List TokenDescriptor
  blockhash2 : String
  sendResult2 : Except String String
  confirmResult2 : Except String Unit

/-- The map body of step 3 of `compressTokens`: one parsed token account
reshaped into the compression library's descriptor
(`hash` = the mint, `amount` = `new BN(uiAmountString)`, `owner` = the
connected wallet key, `lamports` = `new BN(1)`, `address` = the account's
pubkey, `data` = `Buffer.alloc(0)`). -/
def toDescriptor (publicKey : String) (a : ParsedTokenAccount) : TokenDescriptor :=
  { compressedAccount :=
      { hash := a.mint
        amount := BNVal.ofStr a.uiAmountString
        owner := publicKey
        lamports := BNVal.ofNum 1
        address := some a.pubkey
        data := [] }
    parsed := a }

/-- The `try` block of `compressTokens` for the selected token, given the
pre-state `s` (the handler closure's view of the state). Returns the effect
trace of the block, its outcome (`ok` or the thrown error message), and the
pending `signature` state update (`some sig` once `setSignature(sig)` ran,
`none` if it never did). -/
def compressTryBody (env : CompressEnv) (s : CState) (selectedToken : TokenInfo) :
    List Effect × Except String Unit × Option String :=
  let (provider, ptr) := getProvider env.providerPresent env.isPhantom
  match provider, s.walletKey with
  | none, _ => (ptr, .error "Wallet not connected", none)
  | some _, none => (ptr, .error "Wallet not connected", none)
  | some _, some publicKey =>
    let payer := env.payerKey
    let mint := selectedToken.mintAddress
    let ata := env.deriveAta mint publicKey
    let tr1 := ptr ++ [Effect.netGetAccountInfo ata]
    let createStep : List Effect × Except String Unit :=
      match env.accountInfo with
      | some _ => ([], .ok ())
      | none =>
          let tx : Tx :=
            { instructions := [Instruction.createAssociatedTokenAccount payer publicKey mint]
              recentBlockhash := env.blockhash1
              feePayer := payer
              signers := [payer] }
          let ctr := [Effect.netGetLatestBlockhash, Effect.netSignAndSendTransaction tx]
          match env.sendResult1 with
          | .error e => (ctr, .error e)
          | .ok sig1 =>
              match env.confirmResult1 with
              | .error e => (ctr ++ [Effect.netConfirmTransaction sig1], .error e)
              | .ok _ => (ctr ++ [Effect.netConfirmTransaction sig1], .ok ())
    match createStep with
    | (ctr, .error e) => (tr1 ++ ctr, .error e, none)
    | (ctr, .ok _) =>
      let tr2 := tr1 ++ ctr ++ [Effect.netGetParsedTokenAccountsByOwner publicKey (some mint)]
      let parsedList := env.parsedAccounts.map (toDescriptor publicKey)
      let amount := BNVal.ofNum 100000000
      let inputAccounts := env.selectMin parsedList amount
      let tr3 := tr2 ++ [Effect.selectMinCall parsedList amount]
      match inputAccounts with
      | [] => (tr3, .error "No input accounts found for compression.", none)
      | first :: _ =>
        match first.compressedAccount.address with
        | none => (tr3, .error "No source address found for compression.", none)
        | some sourceAddress =>
          let tx2 : Tx :=
            { instructions := [Instruction.compress payer mint publicKey amount publicKey sourceAddress]
              recentBlockhash := env.blockhash2
              feePayer := payer
              signers := [payer] }
          let tr4 := tr3 ++
            [Effect.buildCompressIx payer mint publicKey amount publicKey sourceAddress,
             Effect.netGetLatestBlockhash, Effect.netSignAndSendTransaction tx2]
          match env.sendResult2 with
          | .error e => (tr4, .error e, none)
          | .ok sig2 =>
              match env.confirmResult2 with
              | .error e => (tr4 ++ [Effect.netConfirmTransaction sig2], .error e, some sig2)
              | .ok _ =>
                  (tr4 ++ [Effect.netConfirmTransaction sig2,
                           Effect.alert "Token successfully compressed."],
                   .ok (), some sig2)

/-- `compressTokens()`: require exactly one selected token (else alert and
return with no other effect); run the `try` block; on a thrown error, the
`catch` block does a best-effort `getTransaction` log fetch — guarded by
`if (signature)`, where `signature` is the closure's view of the state (the
value it had when the handler was created, NOT a value set by
`setSignature` during this run) — and then alerts the generic failure
message. The post-state applies the pending `setSignature` update. -/
def compressTokens (env : CompressEnv) (s : CState) : CState × List Effect :=
  match s.tokens.filter (fun t => t.selected) with
  | [selectedToken] =>
      let (btr, outcome, sigSet) := compressTryBody env s selectedToken
      let s1 : CState :=
        { s with signature := match sigSet with | some sig => some sig | none => s.signature }
      match outcome with
      | .ok _ => (s1, btr)
      | .error _ =>
          let logTr := match s.signature with
            | some sig => [Effect.netGetTransaction sig]
            | none => []
          (s1, btr ++ logTr ++ [Effect.alert "Compression failed. Check the console for details."])
  | _ => (s, [Effect.alert "Please select exactly one token to compress."])

/-- Whether a transaction carries an associated-token-account creation
instruction. -/
def Tx.hasCreateIx (tx : Tx) : Bool :=
  tx.instructions.any fun i => match i with
    | .createAssociatedTokenAccount .. => true
    | _ => false

/-- Whether a transaction carries a compression instruction. -/
def Tx.hasCompressIx (tx : Tx) : Bool :=
  tx.instructions.any fun i => match i with
    | .compress .. => true
    | _ => false

/-- Whether an effect submits a transaction carrying a creation instruction. -/
def Effect.submitsCreate : Effect → Bool
  | .netSignAndSendTransaction tx => tx.hasCreateIx
  | _ => false

/-- Whether an effect submits a transaction carrying a compression
instruction. -/
def Effect.submitsCompress : Effect → Bool
  | .netSignAndSendTransaction tx => tx.hasCompressIx
  | _ => false

/-- Whether an effect is the building of a compression instruction. -/
def Effect.isBuildCompress : Effect → Bool
  | .buildCompressIx .. => true
  | _ => false

/-- Whether an effect is a `getTransaction` log fetch. -/
def Effect.isGetTransaction : Effect → Bool
  | .netGetTransaction _ => true
  | _ => false

/-- C1: when the number of selected records is not exactly one,
`compressTokens` returns immediately with only the "select exactly one"
alert: the state (wallet key, token list, signature) is returned unchanged
and the trace contains no network call. -/
theorem compressTokens_requires_one_selected (env : CompressEnv) (s : CState)
    (h : (s.tokens.filter (fun t => t.selected)).length ≠ 1) :
    compressTokens env s = (s, [Effect.alert "Please select exactly one token to compress."]) ∧
    ∀ e ∈ (compressTokens env s).2, e.isNetworkCall = false := by
  rcases hf : s.tokens.filter (fun t => t.selected) with _ | ⟨a, _ | ⟨b, l⟩⟩
  · simp [compressTokens, hf, Effect.isNetworkCall]
  · exact absurd (by simp [hf]) h
  · simp [compressTokens, hf, Effect.isNetworkCall]

/-- Witness for C1 at a concrete state with zero selected tokens. -/
theorem compressTokens_requires_one_selected_witness :
    compressTokens
        { providerPresent := true, isPhantom := true, payerKey := "PAYER"
          deriveAta := fun m o => m ++ o, accountInfo := none, blockhash1 := "B1"
          sendResult1 := Except.ok "S1", confirmResult1 := Except.ok ()
          parsedAccounts := [], selectMin := fun l _ => l, blockhash2 := "B2"
          sendResult2 := Except.ok "S2", confirmResult2 := Except.ok () }
        { walletKey := some "PK"
          tokens := [{ mintAddress := "M", amount := "1", selected := false }]
          signature := none } =
      ({ walletKey := some "PK"
         tokens := [{ mintAddress := "M", amount := "1", selected := false }]
         signature := none },
       [Effect.alert "Please select exactly one token to compress."]) :=
  (compressTokens_requires_one_selected _ _ (by decide)).1

/-- C4: a successful `fetchTokens` over `accounts` replaces the token list
by the map of `accounts`, preserving length and order, each record carrying
that account's mint and `uiAmountString` with `selected = false`; the other
state fields are untouched and the only effect is the RPC query. -/
theorem fetchTokens_success_maps (publicKey : String)
    (accounts : List ParsedTokenAccount) (s : CState) :
    fetchTokens publicKey (Except.ok accounts) s =
      ({ s with tokens := accounts.map fun a =>
            { mintAddress := a.mint, amount := a.uiAmountString, selected := false } },
       [Effect.netGetParsedTokenAccountsByOwner publicKey none]) ∧
    (fetchTokens publicKey (Except.ok accounts) s).1.tokens.length = accounts.length ∧
    (∀ i : Nat, (fetchTokens publicKey (Except.ok accounts) s).1.tokens[i]? =
        accounts[i]?.map fun a =>
          { mintAddress := a.mint, amount := a.uiAmountString, selected := false }) := by
  refine ⟨rfl, by simp [fetchTokens], fun i => ?_⟩
  simp [fetchTokens]

/-- C5: toggling the checkbox at an in-range index `i` keeps the list
length, negates record `i`'s `selected` flag while keeping its mint and
amount, and leaves every other index unchanged. -/
theorem handleCheckboxChange_frame (tokens : List TokenInfo) (i : Nat)
    (h : i < tokens.length) :
    (handleCheckboxChange tokens i).length = tokens.length ∧
    (handleCheckboxChange tokens i)[i]? =
      some { mintAddress := (tokens.get ⟨i, h⟩).mintAddress
             amount := (tokens.get ⟨i, h⟩).amount
             selected := !(tokens.get ⟨i, h⟩).selected } ∧
    (∀ j : Nat, j ≠ i → (handleCheckboxChange tokens i)[j]? = tokens[j]?) := by
  have hi : tokens[i]? = some (tokens.get ⟨i, h⟩) := by
    simp [List.getElem?_eq_getElem h]
  unfold handleCheckboxChange
  rw [hi]
  refine ⟨List.length_set .., ?_, fun j hj => ?_⟩
  · simp [List.getElem?_set_self h]
  · exact List.getElem?_set_ne (fun he => hj he.symm)

/-- Witness for C5 on a concrete two-element list at index 0. -/
theorem handleCheckboxChange_frame_witness :
    (handleCheckboxChange
        [{ mintAddress := "A", amount := "1", selected := false },
         { mintAddress := "B", amount := "2", selected := true }] 0).length = 2 ∧
      (handleCheckboxChange
        [{ mintAddress := "A", amount := "1", selected := false },
         { mintAddress := "B", amount := "2", selected := true }] 0)[0]? =
        some { mintAddress := "A", amount := "1", selected := true } ∧
      (∀ j : Nat, j ≠ 0 →
        (handleCheckboxChange
          [{ mintAddress := "A", amount := "1", selected := false },
           { mintAddress := "B", amount := "2", selected := true }] 0)[j]? =
        [{ mintAddress := "A", amount := "1", selected := false },
         { mintAddress := "B", amount := "2", selected := true }][j]?) :=
  handleCheckboxChange_frame
    [{ mintAddress := "A", amount := "1", selected := false },
     { mintAddress := "B", amount := "2", selected := true }] 0 (by decide)

/-- C8: when the RPC query of `fetchTokens` throws, the error is caught,
the entire state (in particular the token list) is returned unchanged, and
the handler returns normally (the model is a total function, so no
exception propagates). -/
theorem fetchTokens_error_preserves (publicKey e : String) (s : CState) :
    fetchTokens publicKey (Except.error e) s =
      (s, [Effect.netGetParsedTokenAccountsByOwner publicKey none]) := rfl

/-- C9: with no injected provider, or an injected object not identifying as
Phantom, `getProvider` opens the install page and returns nothing, and
`connectWallet` leaves the state unchanged with the page-open as its only
effect (no connection attempted). -/
theorem connectWallet_no_provider (env : ConnectEnv) (s : CState)
    (h : env.providerPresent = false ∨ env.isPhantom = false) :
    getProvider env.providerPresent env.isPhantom =
      (none, [Effect.openUrl "https://phantom.app/"]) ∧
    connectWallet env s = (s, [Effect.openUrl "https://phantom.app/"]) := by
  rcases h with h | h <;> simp [getProvider, connectWallet, h]

/-- Witness for C9 at a concrete environment with no injected provider. -/
theorem connectWallet_no_provider_witness :
    connectWallet
        { providerPresent := false, isPhantom := false
          connectResult := Except.ok "PK", fetchResult := Except.ok [] }
        { walletKey := none, tokens := [], signature := none } =
      ({ walletKey := none, tokens := [], signature := none },
       [Effect.openUrl "https://phantom.app/"]) :=
  (connectWallet_no_provider _ _ (Or.inl rfl)).2

/-- C6 counterexample: with no injected provider detected, a
`disconnectWallet` invocation ends with the wallet key still set and the
token list still non-empty, refuting "clears unconditionally". -/
theorem disconnectWallet_not_unconditional :
    (disconnectWallet
        { providerPresent := false, isPhantom := false, disconnectResult := Except.ok () }
        { walletKey := some "PK"
          tokens := [{ mintAddress := "M", amount := "1", selected := false }]
          signature := none }).1.walletKey = some "PK" ∧
    (disconnectWallet
        { providerPresent := false, isPhantom := false, disconnectResult := Except.ok () }
        { walletKey := some "PK"
          tokens := [{ mintAddress := "M", amount := "1", selected := false }]
          signature := none }).1.tokens ≠ [] := by
  constructor <;> decide

/-- C6 (amended): `disconnectWallet` clears the wallet key and the token
list exactly when a provider is detected and its `disconnect()` call
succeeds; when no provider is detected, or the `disconnect()` call throws,
the state is left entirely unchanged. -/
theorem disconnectWallet_clears_iff (env : DisconnectEnv) (s : CState) :
    (env.providerPresent = true → env.isPhantom = true →
      env.disconnectResult = Except.ok () →
      (disconnectWallet env s).1 = { s with walletKey := none, tokens := [] }) ∧
    ((env.providerPresent && env.isPhantom) = false → (disconnectWallet env s).1 = s) ∧
    (∀ e, env.disconnectResult = Except.error e → (disconnectWallet env s).1 = s) := by
  refine ⟨fun h1 h2 h3 => ?_, fun h => ?_, fun e he => ?_⟩
  · simp [disconnectWallet, getProvider, h1, h2, h3]
  · simp [disconnectWallet, getProvider, h]
  · rcases h1 : (env.providerPresent && env.isPhantom) with _ | _ <;>
      simp [disconnectWallet, getProvider, h1, he]

/-- Witness for the amended C6: a concrete successful disconnection clears
both fields. -/
theorem disconnectWallet_clears_iff_witness :
    (disconnectWallet
        { providerPresent := true, isPhantom := true, disconnectResult := Except.ok () }
        { walletKey := some "PK"
          tokens := [{ mintAddress := "M", amount := "1", selected := true }]
          signature := some "SIG" }).1 =
      { walletKey := none, tokens := []
        signature := some "SIG" } :=
  (disconnectWallet_clears_iff
      { providerPresent := true, isPhantom := true, disconnectResult := Except.ok () }
      { walletKey := some "PK"
        tokens := [{ mintAddress := "M", amount := "1", selected := true }]
        signature := some "SIG" }).1 rfl rfl rfl

/-- Helper: an ordered triple of elements occurring in a list, in order,
forms a sublist. -/
theorem sublist_of_triple_split {α : Type} (x y z : α) (a b c d : List α) :
    [x, y, z].Sublist (a ++ (x :: (b ++ (y :: (c ++ (z :: d)))))) := by
  have hz : [z].Sublist (c ++ z :: d) :=
    ((List.nil_sublist d).cons₂ z).trans (List.sublist_append_right c (z :: d))
  have hy : [y, z].Sublist (b ++ y :: (c ++ z :: d)) :=
    (hz.cons₂ y).trans (List.sublist_append_right b _)
  exact (hy.cons₂ x).trans (List.sublist_append_right a _)

/-- How a `compressTokens` run extends its `try`-block trace: on success it
is the whole trace; on a thrown error the catch appends the log fetch for
the pre-state's `signature` (if any) and the generic failure alert. -/
theorem compressTokens_trace_split (env : CompressEnv) (s : CState) (t : TokenInfo)
    (hf : s.tokens.filter (fun x => x.selected) = [t]) :
    ∃ btr out ss, compressTryBody env s t = (btr, out, ss) ∧
      ((∃ u, out = Except.ok u) → (compressTokens env s).2 = btr) ∧
      (∀ e, out = Except.error e → (compressTokens env s).2 =
        btr ++ (match s.signature with
                | some sig => [Effect.netGetTransaction sig]
                | none => []) ++
          [Effect.alert "Compression failed. Check the console for details."]) := by
  rcases hb : compressTryBody env s t with ⟨btr, out, ss⟩
  refine ⟨btr, out, ss, rfl, ?_, ?_⟩
  · rintro ⟨u, rfl⟩
    simp [compressTokens, hf, hb]
  · rintro e rfl
    rcases hsig : s.signature with _ | sig <;> simp [compressTokens, hf, hb, hsig]

set_option maxHeartbeats 2000000 in
/-- Facts holding of every `try`-block trace: the compression-library
selection is always called with the fixed `BN(1e8)` amount on the mapped
descriptors, the compress instruction is always built with that same fixed
amount, no `getTransaction` log fetch happens inside the block, the only
alert it can emit is the success alert, and when the associated account
already exists no submitted transaction carries a creation instruction. -/
theorem compressTryBody_trace_facts (env : CompressEnv) (s : CState) (t : TokenInfo) :
    (∀ accs amt, Effect.selectMinCall accs amt ∈ (compressTryBody env s t).1 →
        amt = BNVal.ofNum 100000000 ∧
        ∃ pk, s.walletKey = some pk ∧ accs = env.parsedAccounts.map (toDescriptor pk)) ∧
    (∀ p m o amt tA src,
        Effect.buildCompressIx p m o amt tA src ∈ (compressTryBody env s t).1 →
        amt = BNVal.ofNum 100000000) ∧
    (∀ sig, Effect.netGetTransaction sig ∉ (compressTryBody env s t).1) ∧
    (∀ msg, Effect.alert msg ∈ (compressTryBody env s t).1 →
        msg = "Token successfully compressed.") ∧
    (∀ a, env.accountInfo = some a →
        ∀ e ∈ (compressTryBody env s t).1, e.submitsCreate = false) := by
  rcases env with ⟨pp, ph, payer, dA, ai, bh1, sr1, cr1, pas, sm, bh2, sr2, cr2⟩
  rcases hwk : s.walletKey with _ | pk
  · cases pp <;> cases ph <;>
      simp [compressTryBody, getProvider, hwk, Effect.submitsCreate]
  · cases pp <;> cases ph <;>
      try (simp [compressTryBody, getProvider, hwk, Effect.submitsCreate]; done)
    rcases ai with _ | a <;> rcases sr1 with e1 | sig1 <;> rcases cr1 with ec | u <;>
      rcases hsm : sm (pas.map (toDescriptor pk)) (BNVal.ofNum 100000000)
        with _ | ⟨first, restA⟩ <;>
      try (simp [compressTryBody, getProvider, hwk, hsm, Effect.submitsCreate,
        Tx.hasCreateIx]; done)
    all_goals
      rcases haddr : first.compressedAccount.address with _ | src <;>
        rcases sr2 with e2 | sig2 <;> rcases cr2 with ec2 | u2 <;>
        simp [compressTryBody, getProvider, hwk, hsm, haddr, Effect.submitsCreate,
          Tx.hasCreateIx] <;>
        (intros; subst_vars; rfl)

set_option maxHeartbeats 2000000 in
/-- Ordering core for C2: when the `try` block runs with a detected
provider, a connected wallet, and no existing associated account, the block
submits a creation transaction, and any submitted compression transaction
is preceded (in trace order) by that creation submission and a
confirmation. -/
theorem compressTryBody_creation_first (env : CompressEnv) (s : CState) (t : TokenInfo)
    (pk : String) (hp : env.providerPresent = true) (hph : env.isPhantom = true)
    (hw : s.walletKey = some pk) (hai : env.accountInfo = none) :
    (∃ tx1, Effect.netSignAndSendTransaction tx1 ∈ (compressTryBody env s t).1 ∧
        tx1.hasCreateIx = true) ∧
    (∀ tx2, Effect.netSignAndSendTransaction tx2 ∈ (compressTryBody env s t).1 →
        tx2.hasCompressIx = true →
        ∃ tx1 sig1, tx1.hasCreateIx = true ∧
          List.Sublist
            [Effect.netSignAndSendTransaction tx1, Effect.netConfirmTransaction sig1,
             Effect.netSignAndSendTransaction tx2]
            (compressTryBody env s t).1) := by
  rcases env with ⟨pp, ph, payer, dA, ai, bh1, sr1, cr1, pas, sm, bh2, sr2, cr2⟩
  simp only at hp hph hai
  subst hp hph hai
  rcases sr1 with e1 | sig1 <;> rcases cr1 with ec | u <;>
    rcases hsm : sm (pas.map (toDescriptor pk)) (BNVal.ofNum 100000000)
      with _ | ⟨first, restA⟩ <;>
    try (simp [compressTryBody, getProvider, hw, hsm, Tx.hasCreateIx, Tx.hasCompressIx]; done)
  all_goals
    rcases haddr : first.compressedAccount.address with _ | src <;>
      rcases sr2 with e2 | sig2 <;> rcases cr2 with ec2 | u2 <;>
      simp [compressTryBody, getProvider, hw, hsm, haddr, Tx.hasCreateIx, Tx.hasCompressIx] <;>
      (refine ⟨{ instructions := [Instruction.createAssociatedTokenAccount payer pk t.mintAddress]
                 recentBlockhash := bh1, feePayer := payer, signers := [payer] },
          by simp, sig1, ?_⟩
       exact sublist_of_triple_split _ _ _ [_, _] [] [_, _, _, _] _)

/-- Any effect of a `compressTokens` run with one selected token is either
an effect of the `try` block, the generic failure alert, or the catch
block's log fetch for the pre-state's signature. -/
theorem compressTokens_mem_split (env : CompressEnv) (s : CState) (t : TokenInfo)
    (hf : s.tokens.filter (fun x => x.selected) = [t]) (e : Effect)
    (he : e ∈ (compressTokens env s).2) :
    e ∈ (compressTryBody env s t).1 ∨
    e = Effect.alert "Compression failed. Check the console for details." ∨
    ∃ sig, e = Effect.netGetTransaction sig ∧ s.signature = some sig := by
  obtain ⟨btr, out, ss, hb, hok, herr⟩ := compressTokens_trace_split env s t hf
  have h1 : (compressTryBody env s t).1 = btr := by rw [hb]
  rw [h1]
  cases out with
  | ok u =>
      rw [hok ⟨u, rfl⟩] at he
      exact Or.inl he
  | error er =>
      rw [herr er rfl] at he
      rcases hsig : s.signature with _ | sig <;> rw [hsig] at he <;> simp at he
      · rcases he with he | he
        · exact Or.inl he
        · exact Or.inr (Or.inl he)
      · rcases he with he | he | he
        · exact Or.inl he
        · exact Or.inr (Or.inr ⟨sig, he, rfl⟩)
        · exact Or.inr (Or.inl he)

/-- C2: in a `compressTokens` run with exactly one selected token, a
detected provider and a connected wallet, if `getAccountInfo` returns null
a creation transaction is submitted, and any submitted compression
transaction is preceded in the trace by that creation submission and its
confirmation; if the account already exists, no submitted transaction ever
carries a creation instruction. -/
theorem compress_creation_before_compression (env : CompressEnv) (s : CState) (pk : String)
    (hsel : (s.tokens.filter (fun t => t.selected)).length = 1)
    (hp : env.providerPresent = true) (hph : env.isPhantom = true)
    (hw : s.walletKey = some pk) :
    (env.accountInfo = none →
      (∃ tx1, Effect.netSignAndSendTransaction tx1 ∈ (compressTokens env s).2 ∧
          tx1.hasCreateIx = true) ∧
      (∀ tx2, Effect.netSignAndSendTransaction tx2 ∈ (compressTokens env s).2 →
          tx2.hasCompressIx = true →
          ∃ tx1 sig1, tx1.hasCreateIx = true ∧
            List.Sublist
              [Effect.netSignAndSendTransaction tx1, Effect.netConfirmTransaction sig1,
               Effect.netSignAndSendTransaction tx2]
              (compressTokens env s).2)) ∧
    (∀ a, env.accountInfo = some a →
      ∀ e ∈ (compressTokens env s).2, e.submitsCreate = false) := by
  rcases hf : s.tokens.filter (fun t => t.selected) with _ | ⟨t, _ | ⟨t2, rest⟩⟩
  · simp [hf] at hsel
  · obtain ⟨btr, out, ss, hb, hok, herr⟩ := compressTokens_trace_split env s t hf
    have h1 : (compressTryBody env s t).1 = btr := by rw [hb]
    have hfacts := compressTryBody_trace_facts env s t
    rw [h1] at hfacts
    obtain ⟨extra, htr, hextra⟩ :
        ∃ extra, (compressTokens env s).2 = btr ++ extra ∧
          ∀ e ∈ extra, e.submitsCreate = false ∧
            ∀ tx, e ≠ Effect.netSignAndSendTransaction tx := by
      cases out with
      | ok u =>
          exact ⟨[], by simpa using hok ⟨u, rfl⟩, by simp⟩
      | error er =>
          refine ⟨(match s.signature with
                    | some sig => [Effect.netGetTransaction sig]
                    | none => []) ++
              [Effect.alert "Compression failed. Check the console for details."],
            by simpa [List.append_assoc] using herr er rfl, ?_⟩
          rcases s.signature with _ | sig <;> simp [Effect.submitsCreate]
    refine ⟨fun hai => ?_, fun a ha e he => ?_⟩
    · have hcf := compressTryBody_creation_first env s t pk hp hph hw hai
      rw [h1] at hcf
      obtain ⟨⟨tx1, htx1, hcr⟩, hord⟩ := hcf
      rw [htr]
      refine ⟨⟨tx1, List.mem_append_left _ htx1, hcr⟩, fun tx2 hm hcomp => ?_⟩
      rcases List.mem_append.1 hm with hm | hm
      · obtain ⟨tx1', sig1, hcr', hsub⟩ := hord tx2 hm hcomp
        exact ⟨tx1', sig1, hcr', hsub.trans (List.sublist_append_left btr extra)⟩
      · exact absurd rfl ((hextra _ hm).2 tx2)
    · rw [htr] at he
      rcases List.mem_append.1 he with he | he
      · exact hfacts.2.2.2.2 a ha e he
      · exact (hextra e he).1
  · simp [hf] at hsel

/-- Witness for C2 at a concrete run: no existing account, a successful
creation and compression; the creation transaction is submitted. -/
theorem compress_creation_before_compression_witness :
    ∃ tx1,
      Effect.netSignAndSendTransaction tx1 ∈
        (compressTokens
          { providerPresent := true, isPhantom := true, payerKey := "PAYER"
            deriveAta := fun m o => m ++ o, accountInfo := none, blockhash1 := "B1"
            sendResult1 := Except.ok "S1", confirmResult1 := Except.ok ()
            parsedAccounts :=
              [{ pubkey := "APK", mint := "MINT", uiAmountString := "5", rawAmount := "5000" }]
            selectMin := fun l _ => l, blockhash2 := "B2"
            sendResult2 := Except.ok "S2", confirmResult2 := Except.ok () }
          { walletKey := some "PK"
            tokens := [{ mintAddress := "MINT", amount := "5", selected := true }]
            signature := none }).2 ∧
      tx1.hasCreateIx = true :=
  ((compress_creation_before_compression
      { providerPresent := true, isPhantom := true, payerKey := "PAYER"
        deriveAta := fun m o => m ++ o, accountInfo := none, blockhash1 := "B1"
        sendResult1 := Except.ok "S1", confirmResult1 := Except.ok ()
        parsedAccounts :=
          [{ pubkey := "APK", mint := "MINT", uiAmountString := "5", rawAmount := "5000" }]
        selectMin := fun l _ => l, blockhash2 := "B2"
        sendResult2 := Except.ok "S2", confirmResult2 := Except.ok () }
      { walletKey := some "PK"
        tokens := [{ mintAddress := "MINT", amount := "5", selected := true }]
        signature := none }
      "PK" (by decide) rfl rfl rfl).1 rfl).1

/-- C3: in a run with one selected token, a detected provider and a
connected wallet, whenever the compression library's selection over the
mapped descriptors returns an empty list, the handler throws before any
compression instruction is built or submitted, and the user-facing failure
alert is shown. -/
theorem compress_empty_selection_aborts (env : CompressEnv) (s : CState) (pk : String)
    (hsel : (s.tokens.filter (fun t => t.selected)).length = 1)
    (hp : env.providerPresent = true) (hph : env.isPhantom = true)
    (hw : s.walletKey = some pk)
    (hempty : env.selectMin (env.parsedAccounts.map (toDescriptor pk))
        (BNVal.ofNum 100000000) = []) :
    (compressTokens env s).2.any Effect.isBuildCompress = false ∧
    (compressTokens env s).2.any Effect.submitsCompress = false ∧
    Effect.alert "Compression failed. Check the console for details." ∈
      (compressTokens env s).2 := by
  rcases hf : s.tokens.filter (fun t => t.selected) with _ | ⟨t, _ | ⟨t2, rest⟩⟩
  · simp [hf] at hsel
  · rcases env with ⟨pp, ph, payer, dA, ai, bh1, sr1, cr1, pas, sm, bh2, sr2, cr2⟩
    simp only at hp hph hempty
    subst hp hph
    rcases ai with _ | a <;> rcases sr1 with e1 | sig1 <;> rcases cr1 with e1c | u <;>
      rcases hsig : s.signature with _ | sig0 <;>
      simp [compressTokens, hf, compressTryBody, getProvider, hw, hempty, hsig,
        Effect.isBuildCompress, Effect.submitsCompress, Tx.hasCompressIx]
  · simp [hf] at hsel

/-- Witness for C3 at a concrete run whose selection returns no accounts. -/
theorem compress_empty_selection_aborts_witness :
    (compressTokens
        { providerPresent := true, isPhantom := true, payerKey := "PAYER"
          deriveAta := fun m o => m ++ o, accountInfo := some "x", blockhash1 := "B1"
          sendResult1 := Except.ok "S1", confirmResult1 := Except.ok ()
          parsedAccounts :=
            [{ pubkey := "APK", mint := "MINT", uiAmountString := "5", rawAmount := "5000" }]
          selectMin := fun _ _ => [], blockhash2 := "B2"
          sendResult2 := Except.ok "S2", confirmResult2 := Except.ok () }
        { walletKey := some "PK"
          tokens := [{ mintAddress := "MINT", amount := "5", selected := true }]
          signature := none }).2.any Effect.isBuildCompress = false ∧
    (compressTokens
        { providerPresent := true, isPhantom := true, payerKey := "PAYER"
          deriveAta := fun m o => m ++ o, accountInfo := some "x", blockhash1 := "B1"
          sendResult1 := Except.ok "S1", confirmResult1 := Except.ok ()
          parsedAccounts :=
            [{ pubkey := "APK", mint := "MINT", uiAmountString := "5", rawAmount := "5000" }]
          selectMin := fun _ _ => [], blockhash2 := "B2"
          sendResult2 := Except.ok "S2", confirmResult2 := Except.ok () }
        { walletKey := some "PK"
          tokens := [{ mintAddress := "MINT", amount := "5", selected := true }]
          signature := none }).2.any Effect.submitsCompress = false ∧
    Effect.alert "Compression failed. Check the console for details." ∈
      (compressTokens
        { providerPresent := true, isPhantom := true, payerKey := "PAYER"
          deriveAta := fun m o => m ++ o, accountInfo := some "x", blockhash1 := "B1"
          sendResult1 := Except.ok "S1", confirmResult1 := Except.ok ()
          parsedAccounts :=
            [{ pubkey := "APK", mint := "MINT", uiAmountString := "5", rawAmount := "5000" }]
          selectMin := fun _ _ => [], blockhash2 := "B2"
          sendResult2 := Except.ok "S2", confirmResult2 := Except.ok () }
        { walletKey := some "PK"
          tokens := [{ mintAddress := "MINT", amount := "5", selected := true }]
          signature := none }).2 :=
  compress_empty_selection_aborts _ _ "PK" (by decide) rfl rfl rfl rfl

/-- C10: whatever the environment and state, the amount handed to the
compression library's account selection and the amount in the built
compress instruction are the fixed constant `new BN(1e8)` = 10^8, the
selection is always called on the descriptors mapped from the re-queried
accounts, and each descriptor's amount is the `BN` parse of that account's
human-readable `uiAmountString`. -/
theorem compress_fixed_amount (env : CompressEnv) (s : CState) :
    (∀ accs amt, Effect.selectMinCall accs amt ∈ (compressTokens env s).2 →
        amt = BNVal.ofNum 100000000 ∧
        ∃ pk, s.walletKey = some pk ∧ accs = env.parsedAccounts.map (toDescriptor pk)) ∧
    (∀ p m o amt tA src,
        Effect.buildCompressIx p m o amt tA src ∈ (compressTokens env s).2 →
        amt = BNVal.ofNum 100000000) ∧
    (∀ pk a, (toDescriptor pk a).compressedAccount.amount = BNVal.ofStr a.uiAmountString) := by
  refine ⟨fun accs amt hm => ?_, fun p m o amt tA src hm => ?_, fun pk a => rfl⟩ <;>
  · rcases hf : s.tokens.filter (fun t => t.selected) with _ | ⟨t, _ | ⟨t2, rest⟩⟩
    · simp [compressTokens, hf] at hm
    · rcases compressTokens_mem_split env s t hf _ hm with h | h | ⟨sig, h, hs⟩
      · first
        | exact (compressTryBody_trace_facts env s t).1 accs amt h
        | exact (compressTryBody_trace_facts env s t).2.1 p m o amt tA src h
      · simp at h
      · simp at h
    · simp [compressTokens, hf] at hm

/-- Witness for C10 at a concrete run reaching the selection call. -/
theorem compress_fixed_amount_witness :
    Effect.selectMinCall
        [{ compressedAccount :=
             { hash := "MINT", amount := BNVal.ofStr "5", owner := "PK"
               lamports := BNVal.ofNum 1, address := some "APK", data := [] }
           parsed := { pubkey := "APK", mint := "MINT", uiAmountString := "5"
                       rawAmount := "5000" } }]
        (BNVal.ofNum 100000000) ∈
      (compressTokens
        { providerPresent := true, isPhantom := true, payerKey := "PAYER"
          deriveAta := fun m o => m ++ o, accountInfo := some "x", blockhash1 := "B1"
          sendResult1 := Except.ok "S1", confirmResult1 := Except.ok ()
          parsedAccounts :=
            [{ pubkey := "APK", mint := "MINT", uiAmountString := "5", rawAmount := "5000" }]
          selectMin := fun l _ => l, blockhash2 := "B2"
          sendResult2 := Except.ok "S2", confirmResult2 := Except.ok () }
        { walletKey := some "PK"
          tokens := [{ mintAddress := "MINT", amount := "5", selected := true }]
          signature := none }).2 ∧
    BNVal.ofNum 100000000 = BNVal.ofNum 100000000 :=
  ⟨by decide,
   ((compress_fixed_amount
      { providerPresent := true, isPhantom := true, payerKey := "PAYER"
        deriveAta := fun m o => m ++ o, accountInfo := some "x", blockhash1 := "B1"
        sendResult1 := Except.ok "S1", confirmResult1 := Except.ok ()
        parsedAccounts :=
          [{ pubkey := "APK", mint := "MINT", uiAmountString := "5", rawAmount := "5000" }]
        selectMin := fun l _ => l, blockhash2 := "B2"
        sendResult2 := Except.ok "S2", confirmResult2 := Except.ok () }
      { walletKey := some "PK"
        tokens := [{ mintAddress := "MINT", amount := "5", selected := true }]
        signature := none }).1
      [{ compressedAccount :=
           { hash := "MINT", amount := BNVal.ofStr "5", owner := "PK"
             lamports := BNVal.ofNum 1, address := some "APK", data := [] }
         parsed := { pubkey := "APK", mint := "MINT", uiAmountString := "5"
                     rawAmount := "5000" } }]
      (BNVal.ofNum 100000000) (by decide)).1⟩

/-- C7 counterexample: a concrete run that fails at confirmation after the
compression signature "SIG2" was captured in that same run (the post-state
records it and the failure alert is shown), yet the catch block performs no
`getTransaction` log fetch at all: the `if (signature)` guard reads the
closure's pre-state value, which is still null. -/
theorem compress_catch_misses_own_signature :
    ((compressTokens
        { providerPresent := true, isPhantom := true, payerKey := "PAYER"
          deriveAta := fun m o => m ++ o, accountInfo := some "x", blockhash1 := "B1"
          sendResult1 := Except.ok "S1", confirmResult1 := Except.ok ()
          parsedAccounts :=
            [{ pubkey := "APK", mint := "MINT", uiAmountString := "5", rawAmount := "5000" }]
          selectMin := fun l _ => l, blockhash2 := "B2"
          sendResult2 := Except.ok "SIG2", confirmResult2 := Except.error "fail" }
        { walletKey := some "PK"
          tokens := [{ mintAddress := "MINT", amount := "5", selected := true }]
          signature := none }).1.signature = some "SIG2") ∧
    Effect.alert "Compression failed. Check the console for details." ∈
      (compressTokens
        { providerPresent := true, isPhantom := true, payerKey := "PAYER"
          deriveAta := fun m o => m ++ o, accountInfo := some "x", blockhash1 := "B1"
          sendResult1 := Except.ok "S1", confirmResult1 := Except.ok ()
          parsedAccounts :=
            [{ pubkey := "APK", mint := "MINT", uiAmountString := "5", rawAmount := "5000" }]
          selectMin := fun l _ => l, blockhash2 := "B2"
          sendResult2 := Except.ok "SIG2", confirmResult2 := Except.error "fail" }
        { walletKey := some "PK"
          tokens := [{ mintAddress := "MINT", amount := "5", selected := true }]
          signature := none }).2 ∧
    (compressTokens
        { providerPresent := true, isPhantom := true, payerKey := "PAYER"
          deriveAta := fun m o => m ++ o, accountInfo := some "x", blockhash1 := "B1"
          sendResult1 := Except.ok "S1", confirmResult1 := Except.ok ()
          parsedAccounts :=
            [{ pubkey := "APK", mint := "MINT", uiAmountString := "5", rawAmount := "5000" }]
          selectMin := fun l _ => l, blockhash2 := "B2"
          sendResult2 := Except.ok "SIG2", confirmResult2 := Except.error "fail" }
        { walletKey := some "PK"
          tokens := [{ mintAddress := "MINT", amount := "5", selected := true }]
          signature := none }).2.any Effect.isGetTransaction = false := by
  refine ⟨by decide, by decide, by decide⟩

/-- C7 (amended): the catch block's log fetch is driven by the closure's
pre-state `signature` (captured when the handler was created), not by a
signature captured via `setSignature` during the same run: if the pre-state
signature is null, no `getTransaction` call ever occurs; if it is some
`sig0`, then every failing run fetches the logs of `sig0`, and `sig0` is
the only signature ever fetched. -/
theorem compress_catch_prior_signature (env : CompressEnv) (s : CState) :
    (s.signature = none →
      (compressTokens env s).2.any Effect.isGetTransaction = false) ∧
    (∀ sig0, s.signature = some sig0 →
      (Effect.alert "Compression failed. Check the console for details." ∈
          (compressTokens env s).2 →
        Effect.netGetTransaction sig0 ∈ (compressTokens env s).2) ∧
      (∀ sig, Effect.netGetTransaction sig ∈ (compressTokens env s).2 → sig = sig0)) := by
  rcases hf : s.tokens.filter (fun t => t.selected) with _ | ⟨t, _ | ⟨t2, rest⟩⟩
  · simp [compressTokens, hf, Effect.isGetTransaction]
  · obtain ⟨btr, out, ss, hb, hok, herr⟩ := compressTokens_trace_split env s t hf
    have h1 : (compressTryBody env s t).1 = btr := by rw [hb]
    have hfacts := compressTryBody_trace_facts env s t
    rw [h1] at hfacts
    refine ⟨fun hsig => ?_, fun sig0 hsig => ⟨fun hal => ?_, fun sig hm => ?_⟩⟩
    · rw [List.any_eq_false]
      intro e he
      rcases compressTokens_mem_split env s t hf e he with h | h | ⟨sig, rfl, hs⟩
      · rw [h1] at h
        cases e <;> simp [Effect.isGetTransaction]
        exact hfacts.2.2.1 _ h
      · subst h; simp [Effect.isGetTransaction]
      · rw [hsig] at hs; exact absurd hs (by simp)
    · cases out with
      | ok u =>
          rw [hok ⟨u, rfl⟩] at hal
          have := hfacts.2.2.2.1 _ hal
          simp at this
      | error er =>
          rw [herr er rfl, hsig]
          simp
    · rcases compressTokens_mem_split env s t hf _ hm with h | h | ⟨sig', h, hs⟩
      · rw [h1] at h
        exact absurd h (hfacts.2.2.1 sig)
      · simp at h
      · rw [hsig] at hs
        rw [Effect.netGetTransaction.injEq] at h
        rw [h]
        exact (Option.some.injEq _ _ ▸ hs).symm ▸ rfl
  · simp [compressTokens, hf, Effect.isGetTransaction]

/-- Witness for the amended C7: a failing concrete run whose pre-state
holds a prior signature "OLD" fetches the logs of "OLD". -/
theorem compress_catch_prior_signature_witness :
    Effect.netGetTransaction "OLD" ∈
      (compressTokens
        { providerPresent := false, isPhantom := false, payerKey := "PAYER"
          deriveAta := fun m o => m ++ o, accountInfo := none, blockhash1 := "B1"
          sendResult1 := Except.ok "S1", confirmResult1 := Except.ok ()
          parsedAccounts := [], selectMin := fun l _ => l, blockhash2 := "B2"
          sendResult2 := Except.ok "S2", confirmResult2 := Except.ok () }
        { walletKey := some "PK"
          tokens := [{ mintAddress := "MINT", amount := "5", selected := true }]
          signature := some "OLD" }).2 :=
  ((compress_catch_prior_signature
      { providerPresent := false, isPhantom := false, payerKey := "PAYER"
        deriveAta := fun m o => m ++ o, accountInfo := none, blockhash1 := "B1"
        sendResult1 := Except.ok "S1", confirmResult1 := Except.ok ()
        parsedAccounts := [], selectMin := fun l _ => l, blockhash2 := "B2"
        sendResult2 := Except.ok "S2", confirmResult2 := Except.ok () }
      { walletKey := some "PK"
        tokens := [{ mintAddress := "MINT", amount := "5", selected := true }]
        signature := some "OLD" }).2 "OLD" rfl).1 (by decide)
